import Mathlib

/-!
Verification development for the MTranCore translation orchestration engine.

Shallow embedding of the JavaScript sources:
  * js/lang.js        — language tables (Lang namespace below)
  * js/translator.js  — planning and routing (analyzeTranslationPlan,
                        executeTranslation, processLanguages, Translate,
                        removeEngine, handleWorkerError, Shutdown, Preload race)
  * js/worker.js      — WorkQueue (runTask, cancelTask, drain, cancelWork)
  * js/engine.js      — CleanText
  * js/models.js      — getModelInfo, getModelPaths

External collaborators (the OpenCC script converter, the Bergamot neural
runtime, the language detector) are modelled as opaque function parameters,
exactly as the spec treats them: pure text transforms.  JS strings are
modelled as Lean String (or List Char where character-level structure
matters); JS Map is modelled as an insertion-ordered association list.
-/

namespace MTran

namespace Lang

/-- Models that translate into English (lang.js MC2E, verbatim incl. the
duplicated "uk" entry; only membership is ever consulted). -/
def MC2E : List String :=
  ["cs", "fi", "id", "bg", "ml", "ro", "he", "hi", "de", "kn", "sk", "hr",
   "uk", "es", "el", "pt", "ta", "it", "ca", "tr", "sl", "nl", "bn", "gu",
   "sv", "lt", "hu", "et", "fr", "ru", "pl", "sq", "fa", "ms", "da", "te",
   "lv", "ko", "zh-Hans", "uk", "ja", "ar"]

/-- Models that translate from English (lang.js MEC2). -/
def MEC2 : List String :=
  ["is", "sv", "bs", "fr", "fa", "gu", "de", "nl", "sk", "sr", "bg", "ca",
   "ml", "hu", "he", "id", "cs", "pt", "it", "tr", "uk", "bn", "be", "ro",
   "hi", "kn", "lv", "et", "sq", "nn", "mt", "ms", "da", "hr", "lt", "az",
   "vi", "el", "ta", "te", "pl", "sl", "zh-Hans", "ja", "ar", "ko"]

/-- Alias map (lang.js MALIAS): the only alias is zh-CN → zh-Hans. -/
def MALIAS (code : String) : Option String :=
  if code = "zh-CN" then some "zh-Hans" else none

/-- Chinese variants convertible to simplified by OpenCC (lang.js MC2ZH). -/
def MC2ZH : List String := ["zh-Hant", "zh-TW", "zh-HK"]

/-- All Chinese-script codes (lang.js MCC). -/
def MCC : List String := ["zh-Hans", "zh-Hant", "zh-TW", "zh-HK"]

/-- All supported codes (lang.js MALL).  The JS builds
["en", ...new Set([...MC2E, ...MEC2, ...MC2ZH, ...keys(MALIAS)])]; the Set
only removes duplicates, which never changes membership, the sole operation
performed on MALL (Array.includes). -/
def MALL : List String := "en" :: (MC2E ++ MEC2 ++ MC2ZH ++ ["zh-CN"])

/-- Simplified-to-variant OpenCC configuration (lang.js ZH2CC). -/
def ZH2CC (code : String) : Option String :=
  if code = "zh-Hant" then some "s2twp"
  else if code = "zh-TW" then some "s2twp"
  else if code = "zh-HK" then some "s2hk"
  else none

/-- Variant-to-simplified OpenCC configuration (lang.js CC2ZH). -/
def CC2ZH (code : String) : Option String :=
  if code = "zh-Hant" then some "tw2sp"
  else if code = "zh-TW" then some "tw2sp"
  else if code = "zh-HK" then some "hk2s"
  else none

end Lang

/-- The plan record produced by translator.js analyzeTranslationPlan.
Fields that the JS leaves null are Option none. -/
structure TranslationPlan where
  needPreProcess : Bool
  preProcessType : Option String
  needPostProcess : Bool
  postProcessType : Option String
  pureCC : Bool
  pureCCComplex : Bool
  pureCCComplexType1 : Option String
  pureCCComplexType2 : Option String
deriving Repr, DecidableEq

/-- translator.js analyzeTranslationPlan (lines 891-929).  The JS mutates
local copies of fromLang/toLang after consuming the variant codes; the lets
from1/to1 model those reassignments. -/
def analyzeTranslationPlan (fromLang toLang : String) : TranslationPlan :=
  let p0 : TranslationPlan := ⟨false, none, false, none, false, false, none, none⟩
  let st1 : TranslationPlan × String :=
    if Lang.MC2ZH.contains fromLang then
      ({ p0 with needPreProcess := true, preProcessType := Lang.CC2ZH fromLang }, "zh-Hans")
    else (p0, fromLang)
  let st2 : TranslationPlan × String :=
    if Lang.MC2ZH.contains toLang then
      ({ st1.1 with needPostProcess := true, postProcessType := Lang.ZH2CC toLang }, "zh-Hans")
    else (st1.1, toLang)
  if Lang.MCC.contains st1.2 && Lang.MCC.contains st2.2 then
    let p3 := { st2.1 with pureCC := true }
    if p3.needPreProcess && p3.needPostProcess then
      { p3 with pureCCComplex := true,
                pureCCComplexType1 := p3.preProcessType,
                pureCCComplexType2 := p3.postProcessType }
    else p3
  else st2.1

/-- OpenCC.convert(text, processType) with an Option-typed configuration:
on every code path that applies a conversion the type field is some; the
none case (unreachable from the call sites below) leaves the text as is. -/
def applyConv (conv : String → String → String) (text : String) : Option String → String
  | some ty => conv text ty
  | none => text

/-- translator.js preprocessTexts (lines 937-940): map the converter. -/
def preprocessTexts (conv : String → String → String) (texts : List String)
    (processType : Option String) : List String :=
  texts.map (fun t => applyConv conv t processType)

/-- translator.js postprocessTexts (lines 948-951): identical mapping. -/
def postprocessTexts (conv : String → String → String) (texts : List String)
    (processType : Option String) : List String :=
  texts.map (fun t => applyConv conv t processType)

/-- translator.js performComplexCCTranslation (lines 959-965). -/
def performComplexCCTranslation (conv : String → String → String) (texts : List String)
    (ty1 ty2 : Option String) : List String :=
  texts.map (fun t => applyConv conv (applyConv conv t ty1) ty2)

/-- Result of executeTranslation: the output texts plus whether the neural
engine path (Preload + worker dispatch) was taken. -/
structure ExecResult where
  results : List String
  usedEngine : Bool
deriving Repr, DecidableEq

/-- translator.js executeTranslation (lines 855-883).  The engine parameter
abstracts Preload(fromLang, toLang).translate applied to one text; the
usedEngine flag records that this branch (engine-pool creation and worker
dispatch) ran. -/
def executeTranslation (conv : String → String → String)
    (engine : String → String → String → String)
    (texts : List String) (fromLang toLang : String) : ExecResult :=
  let plan := analyzeTranslationPlan fromLang toLang
  let texts1 :=
    if plan.needPreProcess then preprocessTexts conv texts plan.preProcessType else texts
  let mid : List String × Bool :=
    if plan.pureCC && plan.pureCCComplex then
      (performComplexCCTranslation conv texts1 plan.pureCCComplexType1 plan.pureCCComplexType2,
       false)
    else if plan.pureCC && plan.needPreProcess then
      (preprocessTexts conv texts1 plan.preProcessType, false)
    else if fromLang ≠ toLang then
      (texts1.map (engine fromLang toLang), true)
    else (texts1, false)
  let texts3 :=
    if plan.needPostProcess then postprocessTexts conv mid.1 plan.postProcessType else mid.1
  ⟨texts3, mid.2⟩

/-! Coordinator entry point: translator.js Translate / processLanguages /
validateLanguageCodes (lines 769-845). -/

/-- Scalar-or-list input shape of Translate. -/
inductive TransInput where
  | scalar (s : String)
  | list (l : List String)
deriving Repr, DecidableEq

/-- Errors thrown by validateLanguageCodes (translator.js lines 838-845). -/
inductive TransError where
  | invalidFrom (code : String)
  | invalidTo (code : String)
deriving Repr, DecidableEq

/-- Observable outcome of Translate: the returned value plus whether the
engine path ran (usedEngine) and whether language detection ran
(usedDetect). -/
structure TransOutcome where
  output : TransInput
  usedEngine : Bool
  usedDetect : Bool
deriving Repr, DecidableEq

/-- translator.js processLanguages (lines 813-831): auto-detection, then
validateLanguageCodes against MALL, then alias application.  The detect
parameter abstracts DetectLang.  Returns the processed pair and whether
detection ran. -/
def processLanguages (detect : String → String) (firstText fromLang toLang : String) :
    Except TransError (String × String × Bool) :=
  let usedDetect := fromLang = "auto"
  let pf := if fromLang = "auto" then detect firstText else fromLang
  if ¬ Lang.MALL.contains pf then .error (.invalidFrom pf)
  else if ¬ Lang.MALL.contains toLang then .error (.invalidTo toLang)
  else .ok ((Lang.MALIAS pf).getD pf, (Lang.MALIAS toLang).getD toLang, usedDetect)

/-- translator.js Translate (lines 769-804): normalize shape, short-circuit
empty input, process languages, short-circuit equal languages (returning the
original input), else run executeTranslation and restore the shape. -/
def Translate (detect : String → String) (conv : String → String → String)
    (engine : String → String → String → String)
    (input : TransInput) (fromLang toLang : String) : Except TransError TransOutcome :=
  let isTextArray := match input with | .list _ => true | .scalar _ => false
  let texts := match input with | .scalar s => [s] | .list l => l
  if texts.length < 1 then
    .ok ⟨if isTextArray then .list [] else .scalar "", false, false⟩
  else
    match processLanguages detect (texts.headD "") fromLang toLang with
    | .error e => .error e
    | .ok (pf, pt, det) =>
      if pf = pt then .ok ⟨input, false, det⟩
      else
        let r := executeTranslation conv engine texts pf pt
        .ok ⟨if isTextArray then .list r.results else .scalar (r.results.headD ""),
             r.usedEngine, det⟩

/-! Claims C1, C2, C7, C10 -/

/-- C1: the claim says that whenever both effective ends are Han-script
codes no neural engine pool is created.  The code violates this for
Translate(text, "zh-Hans", "zh-Hant"): analyzeTranslationPlan marks the call
as pure script conversion (pureCC = true, both ends in MCC), yet
executeTranslation only handles the pureCC plan when pureCCComplex or
needPreProcess is set, so this post-convert-only case falls through to the
Preload / worker-dispatch branch: usedEngine = true. -/
theorem C1_hans_to_hant_uses_engine (conv : String → String → String)
    (engine : String → String → String → String) (texts : List String) :
    (executeTranslation conv engine texts "zh-Hans" "zh-Hant").usedEngine = true ∧
      (analyzeTranslationPlan "zh-Hans" "zh-Hant").pureCC = true ∧
      Lang.MCC.contains "zh-Hans" = true ∧ Lang.MCC.contains "zh-Hant" = true := by
  refine ⟨rfl, by decide, by decide, by decide⟩

/-- C2: counterexample.  The claim says a pure simple conversion
(zh-Hant → zh-Hans) applies the converter exactly once per text.  With the
concrete converter that appends one "!" per application, the pipeline output
on input "a" is "a!!" (two applications), not the single application
"a!". -/
theorem C2_counterexample :
    (executeTranslation (fun t _ => t ++ "!") (fun _ _ t => t)
        ["a"] "zh-Hant" "zh-Hans").results = ["a!!"] ∧
      ("a!!" : String) ≠ "a!" := by
  refine ⟨rfl, by decide⟩

/-- C2: amended claim.  For every from in HAN_VARIANTS, Translate to the
canonical simplified code runs the configured converter TO_HANS[from]
twice on each text (once in the preprocessing step of executeTranslation
and once more in its pure-simple branch), with no engine dispatch. -/
theorem C2_variant_to_hans_converts_twice (conv : String → String → String)
    (engine : String → String → String → String) (texts : List String)
    (fromLang : String) (h : Lang.MC2ZH.contains fromLang = true) :
    executeTranslation conv engine texts fromLang "zh-Hans"
      = ⟨texts.map (fun t =>
            applyConv conv (applyConv conv t (Lang.CC2ZH fromLang)) (Lang.CC2ZH fromLang)),
          false⟩ := by
  have hmem : fromLang = "zh-Hant" ∨ fromLang = "zh-TW" ∨ fromLang = "zh-HK" := by
    have hm : fromLang ∈ Lang.MC2ZH := List.mem_of_elem_eq_true h
    simpa [Lang.MC2ZH] using hm
  rcases hmem with rfl | rfl | rfl <;>
    · show ExecResult.mk ((texts.map _).map _) false = _
      rw [List.map_map]
      rfl

/-- C2: witness for the amended theorem at from = "zh-Hant", a concrete
converter and a singleton text list. -/
theorem C2_witness :
    Lang.MC2ZH.contains "zh-Hant" = true ∧
      executeTranslation (fun t _ => t ++ "!") (fun _ _ t => t) ["a"] "zh-Hant" "zh-Hans"
        = ⟨["a"].map (fun t =>
              applyConv (fun t _ => t ++ "!")
                (applyConv (fun t _ => t ++ "!") t (Lang.CC2ZH "zh-Hant"))
                (Lang.CC2ZH "zh-Hant")),
            false⟩ :=
  ⟨by decide,
   C2_variant_to_hans_converts_twice (fun t _ => t ++ "!") (fun _ _ t => t)
     ["a"] "zh-Hant" (by decide)⟩

/-- C7: for every supported code L (alias codes included) and every input,
Translate(input, L, L) returns the input unchanged, with no engine use and
no language detection: processLanguages maps both ends through the same
validation and aliasing, and the equal-language short circuit returns the
original input before executeTranslation is reached. -/
theorem C7_identity_short_circuit (detect : String → String)
    (conv : String → String → String) (engine : String → String → String → String)
    (input : TransInput) (L : String) (h : Lang.MALL.contains L = true) :
    Translate detect conv engine input L L = .ok ⟨input, false, false⟩ := by
  have hm : L ∈ Lang.MALL := List.mem_of_elem_eq_true h
  have hauto : L ≠ "auto" := by
    intro hEq
    rw [hEq] at h
    exact absurd h (by decide)
  cases input with
  | scalar s =>
    simp [Translate, processLanguages, hauto, List.elem_eq_mem, hm]
  | list l =>
    cases l with
    | nil => rfl
    | cons a as =>
      simp [Translate, processLanguages, hauto, List.elem_eq_mem, hm]

/-- C7: witness at the alias code "zh-CN" with a concrete scalar input. -/
theorem C7_witness :
    Lang.MALL.contains "zh-CN" = true ∧
      Translate (fun _ => "en") (fun t _ => t) (fun _ _ t => t)
          (.scalar "hello") "zh-CN" "zh-CN"
        = .ok ⟨.scalar "hello", false, false⟩ :=
  ⟨by decide,
   C7_identity_short_circuit (fun _ => "en") (fun t _ => t) (fun _ _ t => t)
     (.scalar "hello") "zh-CN" (by decide)⟩

/-- C10: the empty-list input returns the empty list immediately for every
fromLang and toLang, including codes outside MALL: the length check at the
top of Translate fires before validation, detection, or any engine work. -/
theorem C10_empty_list_short_circuit (detect : String → String)
    (conv : String → String → String) (engine : String → String → String → String)
    (fromLang toLang : String) :
    Translate detect conv engine (.list []) fromLang toLang
      = .ok ⟨.list [], false, false⟩ := rfl

/-! Worker work queue: worker.js WorkQueue (lines 89-296).  The queue map
tasksByTranslationId is an insertion-ordered list of translation ids; the
promise returned by runTask is tracked per id in awaiters (a ghost record of
the JS promise state: deleting a map entry in the JS drops the only
reference to resolve/reject, leaving the promise pending forever). -/

/-- State of the promise returned by WorkQueue.runTask. -/
inductive AwaiterStatus where
  | pending
  | resolved
  | rejected (msg : String)
deriving Repr, DecidableEq

/-- WorkQueue state: the runImmediately counter, the queued ids in FIFO
order, the id currently being executed by the drain loop (already deleted
from the map, worker.js line 235), and the awaiter states. -/
structure WQState where
  runImmediately : Nat
  queued : List Nat
  running : Option Nat
  awaiters : List (Nat × AwaiterStatus)
deriving Repr, DecidableEq

/-- Set the status of one awaiter (resolve/reject of the stored promise). -/
def setStatus (aws : List (Nat × AwaiterStatus)) (id : Nat) (st : AwaiterStatus) :
    List (Nat × AwaiterStatus) :=
  aws.map (fun p => if p.1 = id then (p.1, st) else p)

/-- worker.js WorkQueue.runTask (lines 114-143): the first
RUN_IMMEDIATELY_COUNT tasks bypass the queue and resolve directly; later
tasks are appended to the map with a pending awaiter. -/
def runTask (s : WQState) (id : Nat) : WQState :=
  if 0 < s.runImmediately then
    { s with runImmediately := s.runImmediately - 1,
             awaiters := s.awaiters ++ [(id, .resolved)] }
  else
    { s with queued := s.queued ++ [id], awaiters := s.awaiters ++ [(id, .pending)] }

/-- worker.js WorkQueue.cancelTask (lines 149-154): exactly
tasksByTranslationId.delete(translationId) — the entry is removed from the
queue and nothing else happens; the awaiter is not rejected. -/
def cancelTask (s : WQState) (id : Nat) : WQState :=
  { s with queued := s.queued.filter (fun t => t ≠ id) }

/-- One dequeue step of the drain loop (worker.js lines 231-235): the oldest
entry is taken out of the map and becomes the running task. -/
def startNextTask (s : WQState) : WQState :=
  match s.queued with
  | [] => s
  | t :: rest => { s with queued := rest, running := some t }

/-- Completion of the running task (worker.js lines 239-252): its awaiter is
resolved with the task result. -/
def finishRunningTask (s : WQState) : WQState :=
  match s.running with
  | none => s
  | some t => { s with running := none, awaiters := setStatus s.awaiters t .resolved }

/-- worker.js WorkQueue.cancelWork (lines 276-295): clear the queue and
reject every queued awaiter with "Translation cancelled".  Included for
contrast with cancelTask, which rejects nothing. -/
def cancelWork (s : WQState) : WQState :=
  { s with queued := [],
           awaiters := s.queued.foldl
             (fun aws t => setStatus aws t (.rejected "Translation cancelled")) s.awaiters }

/-- A queue holding one queued task with id 7 and its pending awaiter, past
the runImmediately window. -/
def c3State : WQState := ⟨0, [7], none, [(7, .pending)]⟩

/-! Coordinator cache and pending map: translator.js (lines 33-35, 306-315,
492-515, 577-607).  The pair field of a pending message records which
language pair the message was dispatched against (in the JS this association
exists only through the worker the message was posted to; the pending map
itself stores no pair). -/

/-- One cache entry (translator.js engineData, lines 80-86): worker ids,
round-robin index, and whether a release timeout is armed. -/
structure EngineData where
  workers : List Nat
  nextWorkerIndex : Nat
  hasTimeout : Bool
deriving Repr, DecidableEq

/-- Coordinator state: cachedEngines (pair key → entry), pendingMessages
(messageId → owning pair, ghost), and the memory release interval timer. -/
structure CoordState where
  cachedEngines : List (String × EngineData)
  pendingMessages : List (Nat × String)
  memoryTimerOn : Bool
deriving Repr, DecidableEq

/-- translator.js getLanguagePairKey (lines 53-55). -/
def pairKey (fromLang toLang : String) : String := fromLang ++ "_" ++ toLang

/-- translator.js removeEngine (lines 492-515): clear the timeout, terminate
every worker of the entry (returned as the list of terminated worker ids),
delete the entry, and stop the memory timer when the cache becomes empty. -/
def removeEngine (s : CoordState) (key : String) : CoordState × List Nat :=
  let terminated := match s.cachedEngines.lookup key with
    | some e => e.workers
    | none => []
  let cache := s.cachedEngines.filter (fun kv => kv.1 ≠ key)
  (⟨cache, s.pendingMessages, if cache.isEmpty then false else s.memoryTimerOn⟩, terminated)

/-- translator.js handleWorkerError (lines 306-315): remove the engine of
the failing pair, then reject every entry of the pending map — all of them,
with no per-pair filtering — and delete each from the map.  Returns the new
state, the terminated worker ids, and the (messageId, error) rejections. -/
def handleWorkerError (s : CoordState) (errMsg fromLang toLang : String) :
    CoordState × List Nat × List (Nat × String) :=
  let r1 := removeEngine s (pairKey fromLang toLang)
  let rejections := r1.1.pendingMessages.map (fun m => (m.1, "Worker error: " ++ errMsg))
  ({ r1.1 with pendingMessages := [] }, r1.2, rejections)

/-- Workers referenced by the cache (the active workers of the system). -/
def activeWorkers (s : CoordState) : List Nat :=
  (s.cachedEngines.map (fun kv => kv.2.workers)).flatten

/-- translator.js Shutdown (lines 577-607): stop the memory timer, reject
and delete every pending message ("All engines are being closed"), clear
each timeout, terminate every worker, clear the cache.  Returns the final
state, the terminated worker ids, and the rejections. -/
def Shutdown (s : CoordState) : CoordState × List Nat × List (Nat × String) :=
  let rejections := s.pendingMessages.map (fun m => (m.1, "All engines are being closed"))
  (⟨[], [], false⟩, activeWorkers s, rejections)

/-- Two cached pairs with one worker each and one pending message against
each pair. -/
def c5State : CoordState :=
  ⟨[("a_b", ⟨[1], 0, true⟩), ("c_d", ⟨[2], 0, true⟩)],
   [(10, "a_b"), (11, "c_d")], true⟩

/-! Claims C3, C5, C8 -/

/-- C3: counterexample.  The claim says CancelOne(id) on a queued task
removes it and rejects its awaiter with a Cancelled error.  On the concrete
queue c3State (task 7 queued, awaiter pending), cancelTask removes the task
but the awaiter stays pending: it is not rejected (and not resolved), so the
promise is left hanging. -/
theorem C3_counterexample :
    (cancelTask c3State 7).queued = [] ∧
      (cancelTask c3State 7).awaiters.lookup 7 = some .pending ∧
      AwaiterStatus.pending ≠ .rejected "Translation cancelled" := by
  refine ⟨rfl, rfl, by decide⟩

/-- C3: amended claim.  CancelOne(id) removes the task from the queue but
never touches any awaiter (the promise is left pending rather than rejected
with Cancelled), and it does not affect the running task, which still
completes normally afterwards. -/
theorem C3_cancel_removes_without_reject (s : WQState) (id : Nat) :
    (cancelTask s id).queued = s.queued.filter (fun t => t ≠ id) ∧
      (cancelTask s id).awaiters = s.awaiters ∧
      (cancelTask s id).running = s.running ∧
      finishRunningTask (cancelTask s id) = cancelTask (finishRunningTask s) id := by
  refine ⟨rfl, rfl, rfl, ?_⟩
  cases h : s.running <;> simp [finishRunningTask, cancelTask, h]

/-- C5: counterexample.  The claim says pending messages of other pairs are
left pending when a worker of pair P fails.  In c5State, message 11 belongs
to pair c_d; after a worker error on pair a_b it is gone from the pending
map and appears in the rejection list — it is not left pending. -/
theorem C5_counterexample :
    c5State.pendingMessages.lookup 11 = some "c_d" ∧
      (handleWorkerError c5State "boom" "a" "b").1.pendingMessages.lookup 11 = none ∧
      (handleWorkerError c5State "boom" "a" "b").2.2.map Prod.fst = [10, 11] ∧
      (handleWorkerError c5State "boom" "a" "b").1.cachedEngines.lookup "c_d"
        = some ⟨[2], 0, true⟩ := by
  refine ⟨rfl, rfl, rfl, rfl⟩

/-- C5: amended claim.  A worker-level error on pair P removes the cache
entry of P (terminating its workers, other entries untouched) and rejects
every pending message of every pair with that error, emptying the pending
map. -/
theorem C5_worker_error_rejects_all (s : CoordState) (errMsg fromLang toLang : String) :
    (handleWorkerError s errMsg fromLang toLang).1.cachedEngines
        = s.cachedEngines.filter (fun kv => kv.1 ≠ pairKey fromLang toLang) ∧
      (handleWorkerError s errMsg fromLang toLang).1.pendingMessages = [] ∧
      (handleWorkerError s errMsg fromLang toLang).2.2
        = s.pendingMessages.map (fun m => (m.1, "Worker error: " ++ errMsg)) ∧
      (handleWorkerError s errMsg fromLang toLang).2.1
        = ((s.cachedEngines.lookup (pairKey fromLang toLang)).map EngineData.workers).getD [] := by
  refine ⟨rfl, rfl, rfl, ?_⟩
  cases h : s.cachedEngines.lookup (pairKey fromLang toLang) <;>
    simp [handleWorkerError, removeEngine, h]

/-- C8: after Shutdown the cache is empty, no active workers remain, the
memory sweep timer is off, the pending map is empty, and the rejection list
contains exactly one rejection per previously pending message (each id is
rejected exactly as often as it was pending, hence exactly once for a
well-formed map); the terminated workers are exactly the active workers at
the time of the call. -/
theorem C8_shutdown_clears_everything (s : CoordState) (id : Nat) :
    (Shutdown s).1.cachedEngines = [] ∧
      (Shutdown s).1.memoryTimerOn = false ∧
      (Shutdown s).1.pendingMessages = [] ∧
      activeWorkers (Shutdown s).1 = [] ∧
      (Shutdown s).2.1 = activeWorkers s ∧
      (Shutdown s).2.2.map Prod.fst = s.pendingMessages.map Prod.fst ∧
      ((Shutdown s).2.2.map Prod.fst).count id = (s.pendingMessages.map Prod.fst).count id := by
  refine ⟨rfl, rfl, rfl, rfl, rfl, ?_, ?_⟩ <;>
    simp [Shutdown, Function.comp_def]

/-! Concurrency model of Preload (translator.js lines 63-101) for one
not-yet-cached pair and two concurrent callers.  Preload reads the cache
synchronously, then suspends on await createWorkerPool, and only afterwards
inserts the entry.  Each caller therefore takes two atomic steps:
  check  — read cachedEngines.get(key): hit → use the cached entry,
           miss → proceed to build;
  build  — the awaited createWorkerPool completes and the synchronous tail
           of Preload inserts the fresh pool into the cache (overwriting
           whatever is there).
poolsBuilt counts worker-pool constructions and doubles as the id supply. -/

/-- Program counter of one Preload caller. -/
inductive CallerPc where
  | start
  | missed
  | doneHit (pool : Nat)
  | doneBuilt (pool : Nat)
deriving Repr, DecidableEq

/-- Shared state of the Preload race: the cache slot of the single pair,
the number of pools constructed so far, and the two callers. -/
structure PreloadRace where
  cacheEntry : Option Nat
  poolsBuilt : Nat
  pc1 : CallerPc
  pc2 : CallerPc
deriving Repr, DecidableEq

/-- Atomic step labels of the two callers. -/
inductive RaceLabel where
  | check1
  | check2
  | build1
  | build2
deriving Repr, DecidableEq

/-- Initial state: pair not cached, nothing built, both callers at the
cache lookup. -/
def raceInit : PreloadRace := ⟨none, 0, .start, .start⟩

/-- One atomic step; a label whose guard does not hold leaves the state
unchanged. -/
def raceStep (s : PreloadRace) : RaceLabel → PreloadRace
  | .check1 =>
    match s.pc1, s.cacheEntry with
    | .start, some p => { s with pc1 := .doneHit p }
    | .start, none => { s with pc1 := .missed }
    | _, _ => s
  | .check2 =>
    match s.pc2, s.cacheEntry with
    | .start, some p => { s with pc2 := .doneHit p }
    | .start, none => { s with pc2 := .missed }
    | _, _ => s
  | .build1 =>
    match s.pc1 with
    | .missed => { s with pc1 := .doneBuilt s.poolsBuilt,
                          cacheEntry := some s.poolsBuilt,
                          poolsBuilt := s.poolsBuilt + 1 }
    | _ => s
  | .build2 =>
    match s.pc2 with
    | .missed => { s with pc2 := .doneBuilt s.poolsBuilt,
                          cacheEntry := some s.poolsBuilt,
                          poolsBuilt := s.poolsBuilt + 1 }
    | _ => s

/-- Run an interleaving from the initial state. -/
def raceRun (labels : List RaceLabel) : PreloadRace :=
  labels.foldl raceStep raceInit

/-- A caller that has finished its Preload call. -/
def isDone : CallerPc → Bool
  | .doneHit _ => true
  | .doneBuilt _ => true
  | _ => false

/-- Number of pools a caller has built (0 or 1). -/
def builtFlag : CallerPc → Nat
  | .doneBuilt _ => 1
  | _ => 0

/-- Invariant of the race: the build counter counts exactly the callers
that finished through a build; any cached entry was built; any finished
caller implies a cached entry (cache entries are never removed here). -/
def raceInv (s : PreloadRace) : Prop :=
  s.poolsBuilt = builtFlag s.pc1 + builtFlag s.pc2 ∧
    (s.cacheEntry.isSome = true → 1 ≤ s.poolsBuilt) ∧
    (isDone s.pc1 = true → s.cacheEntry.isSome = true) ∧
    (isDone s.pc2 = true → s.cacheEntry.isSome = true)

lemma raceInv_init : raceInv raceInit := by
  simp [raceInv, raceInit, builtFlag, isDone]

lemma raceInv_step (s : PreloadRace) (l : RaceLabel) (h : raceInv s) :
    raceInv (raceStep s l) := by
  obtain ⟨h1, h2, h3, h4⟩ := h
  cases l <;> simp only [raceStep]
  case check1 =>
    cases hp : s.pc1 <;> cases hc : s.cacheEntry <;>
      simp_all [raceInv, builtFlag, isDone]
  case check2 =>
    cases hp : s.pc2 <;> cases hc : s.cacheEntry <;>
      simp_all [raceInv, builtFlag, isDone]
  case build1 =>
    cases hp : s.pc1 <;> simp_all [raceInv, builtFlag, isDone] <;> try omega
  case build2 =>
    cases hp : s.pc2 <;> simp_all [raceInv, builtFlag, isDone] <;> try omega

lemma raceInv_run (labels : List RaceLabel) : raceInv (raceRun labels) := by
  suffices h : ∀ s, raceInv s → raceInv (labels.foldl raceStep s) from
    h raceInit raceInv_init
  induction labels with
  | nil => exact fun s hs => hs
  | cons l rest ih => exact fun s hs => ih (raceStep s l) (raceInv_step s l hs)

/-! Claim C6 -/

/-- C6: counterexample.  The claim says that under concurrent Preload calls
against the same uncached pair exactly one pool is constructed.  In the
interleaving where both callers pass the cache check before either build
completes, both callers finish and two pools are constructed. -/
theorem C6_counterexample :
    (raceRun [.check1, .check2, .build1, .build2]).poolsBuilt = 2 ∧
      isDone (raceRun [.check1, .check2, .build1, .build2]).pc1 = true ∧
      isDone (raceRun [.check1, .check2, .build1, .build2]).pc2 = true ∧
      (2 : Nat) ≠ 1 := by
  refine ⟨rfl, rfl, rfl, by decide⟩

/-- C6: amended claim.  Preload has no per-pair single-flight: under two
concurrent calls against the same uncached pair, between one and two pools
are constructed (two in the racing interleaving, the later insert
overwriting the earlier entry), and once both callers are done the cache
holds an entry for the pair, which later lookups use. -/
theorem C6_concurrent_builds_bounded (labels : List RaceLabel)
    (h1 : isDone (raceRun labels).pc1 = true)
    (h2 : isDone (raceRun labels).pc2 = true) :
    1 ≤ (raceRun labels).poolsBuilt ∧ (raceRun labels).poolsBuilt ≤ 2 ∧
      (raceRun labels).cacheEntry.isSome = true := by
  obtain ⟨hc, hsome, hd1, hd2⟩ := raceInv_run labels
  refine ⟨hsome (hd1 h1), ?_, hd2 h2⟩
  have b1 : builtFlag (raceRun labels).pc1 ≤ 1 := by cases (raceRun labels).pc1 <;> simp [builtFlag]
  have b2 : builtFlag (raceRun labels).pc2 ≤ 1 := by cases (raceRun labels).pc2 <;> simp [builtFlag]
  omega

/-- C6: witness for the amended theorem at the racing interleaving. -/
theorem C6_witness :
    1 ≤ (raceRun [.check1, .check2, .build1, .build2]).poolsBuilt ∧
      (raceRun [.check1, .check2, .build1, .build2]).poolsBuilt ≤ 2 ∧
      (raceRun [.check1, .check2, .build1, .build2]).cacheEntry.isSome = true :=
  C6_concurrent_builds_bounded [.check1, .check2, .build1, .build2] (by decide) (by decide)

/-! Model store: models.js getModelInfo / getModelPaths (lines 132-319).
The on-disk state is modelled content-addressed: files maps a path to the
SHA-256 digest of the bytes actually stored there, so
Downloader.verifyChecksum(path, expected) is lookup = some expected and
fs-exists is lookup isSome.  Config.OFFLINE is false and downloads succeed
(the downloader verifies and retries internally); catalog refresh on
forceUpdate is outside this model, matching the claim, which concerns the
forceUpdate = false paths. -/

/-- One catalog entry (required fields of models.js / §6.3):
fromLang, toLang, fileType, name, attachment.location, attachment.hash. -/
structure ModelRecord where
  fromLang : String
  toLang : String
  fileType : String
  name : String
  location : String
  hash : String
deriving Repr, DecidableEq

/-- The five fileType keys preallocated by models.js getModelInfo. -/
def fileTypeKeys : List String := ["model", "lex", "vocab", "srcvocab", "trgvocab"]

/-- Key order of the modelFiles object: the five preallocated keys followed
by any further fileType encountered in the matching records (JS bracket
assignment adds new keys in insertion order). -/
def modelInfoKeys (matching : List ModelRecord) : List String :=
  matching.foldl
    (fun ks r => if ks.contains r.fileType then ks else ks ++ [r.fileType]) fileTypeKeys

/-- models.js getModelInfo (lines 132-165): for each fileType key the last
matching catalog record wins (the forEach overwrites); keys left null are
absent from the result (both call sites skip null entries). -/
def getModelInfo (catalog : List ModelRecord) (fromLang toLang : String) :
    List (String × ModelRecord) :=
  let matching := catalog.filter
    (fun r => r.fromLang = fromLang && r.toLang = toLang && r.fileType ≠ "" && r.location ≠ "")
  (modelInfoKeys matching).filterMap
    (fun ft => ((matching.filter (fun r => r.fileType = ft)).getLast?).map (fun r => (ft, r)))

/-- models.js path.join(MODELS_DIR, name). -/
def modelFilePath (name : String) : String := "models/" ++ name

/-- Result of getModelPaths: the assembled (fileType, path) bundle, the
fileTypes fetched from the network, and the fileTypes whose on-disk bytes
were SHA-256 verified. -/
structure ModelPathsResult where
  files : List (String × String)
  downloads : List String
  checks : List String
deriving Repr, DecidableEq

/-- The cached branch of getModelPaths (models.js lines 191-208): when the
pair is in the downloaded flags, reuse every catalog file whose path exists
on disk — an existence check only, with no checksum verification. -/
def flagPathFiles (catalog : List ModelRecord) (files : List (String × String))
    (fromLang toLang : String) : List (String × String) :=
  (getModelInfo catalog fromLang toLang).filterMap
    (fun ftr =>
      if ftr.2.name = "" then none
      else if (files.lookup (modelFilePath ftr.2.name)).isSome then
        some (ftr.1, modelFilePath ftr.2.name)
      else none)

/-- models.js getModelPaths (lines 170-319) with forceUpdate as a
parameter: validate the codes, take the flag path when marked downloaded
(returning reused files untouched when any exist), otherwise walk the
catalog records, reusing each file that exists and passes verifyChecksum
and downloading the rest (download results are appended after the reused
files, as in the JS result-processing loop). -/
def getModelPaths (catalog : List ModelRecord) (flags : List String)
    (files : List (String × String)) (fromLang toLang : String) (forceUpdate : Bool) :
    Except String ModelPathsResult :=
  if ¬ Lang.MALL.contains fromLang then .error ("Invalid fromLang: " ++ fromLang)
  else if ¬ Lang.MALL.contains toLang then .error ("Invalid toLang: " ++ toLang)
  else
    let langPair := pairKey fromLang toLang
    let flagFiles := flagPathFiles catalog files fromLang toLang
    if flags.contains langPair && !forceUpdate && 0 < flagFiles.length then
      .ok ⟨flagFiles, [], []⟩
    else
      let mf := getModelInfo catalog fromLang toLang
      if mf.isEmpty then .error ("No model files found for language pair: " ++ langPair)
      else
        let step := mf.foldl
          (fun (acc : ModelPathsResult) ftr =>
            let path := modelFilePath ftr.2.name
            let onDisk := (files.lookup path).isSome
            let checks := if onDisk then acc.checks ++ [ftr.1] else acc.checks
            let valid := onDisk && (files.lookup path == some ftr.2.hash)
            if forceUpdate || !valid then
              ⟨acc.files, acc.downloads ++ [ftr.1], checks⟩
            else
              ⟨acc.files ++ [(ftr.1, path)], acc.downloads, checks⟩)
          ⟨[], [], []⟩
        let final : ModelPathsResult :=
          ⟨step.files ++ step.downloads.map
              (fun ft => (ft, modelFilePath (((mf.lookup ft).map ModelRecord.name).getD ""))),
            step.downloads, step.checks⟩
        if final.files.isEmpty then
          .error ("No valid model files available for " ++ langPair)
        else .ok final

/-- A one-record catalog for pair en_de whose model file is on disk with a
digest that does not match the catalog hash. -/
def c4Catalog : List ModelRecord :=
  [⟨"en", "de", "model", "m.bin", "loc/m.bin", "HASH-GOOD"⟩]

/-- On-disk state: the model file exists but its bytes hash to a different
digest than the catalog records. -/
def c4Files : List (String × String) := [("models/m.bin", "HASH-BAD")]

/-! Claim C4 -/

/-- C4: counterexample.  The claim says every local file reused for the
bundle — including on the downloaded-flag path — is SHA-256 checked and
re-downloaded on mismatch.  With the pair flagged downloaded and the local
file corrupt (digest HASH-BAD against catalog HASH-GOOD), getModelPaths
returns the corrupt file in the bundle with no download and no checksum
verification at all. -/
theorem C4_counterexample :
    getModelPaths c4Catalog ["en_de"] c4Files "en" "de" false
        = .ok ⟨[("model", "models/m.bin")], [], []⟩ ∧
      c4Files.lookup "models/m.bin" ≠ some "HASH-GOOD" := by
  refine ⟨rfl, by decide⟩

/-- C4: amended claim.  SHA-256 validation happens only on the non-flagged
path: when the pair is in the downloaded flags (and some catalog file
exists on disk), getModelPaths reuses exactly the existing files after an
existence check only — no checksum is computed and nothing is
re-downloaded, whatever the digests are. -/
theorem C4_flag_path_skips_validation (catalog : List ModelRecord) (flags : List String)
    (files : List (String × String)) (fromLang toLang : String)
    (hf : Lang.MALL.contains fromLang = true)
    (ht : Lang.MALL.contains toLang = true)
    (hp : flags.contains (pairKey fromLang toLang) = true)
    (hn : 0 < (flagPathFiles catalog files fromLang toLang).length) :
    getModelPaths catalog flags files fromLang toLang false
        = .ok ⟨flagPathFiles catalog files fromLang toLang, [], []⟩ ∧
      ∀ ftp ∈ flagPathFiles catalog files fromLang toLang,
        (files.lookup ftp.2).isSome = true := by
  have hf2 : fromLang ∈ Lang.MALL := List.mem_of_elem_eq_true hf
  have ht2 : toLang ∈ Lang.MALL := List.mem_of_elem_eq_true ht
  have hp2 : pairKey fromLang toLang ∈ flags := List.mem_of_elem_eq_true hp
  constructor
  · simp [getModelPaths, hf2, ht2, hp2, hn]
  · intro ftp hmem
    obtain ⟨q, hq, hcond⟩ := List.mem_filterMap.mp hmem
    by_cases hname : q.2.name = ""
    · simp [hname] at hcond
    · by_cases hdisk : (files.lookup (modelFilePath q.2.name)).isSome
      · simp only [hname, if_false, hdisk, if_true] at hcond
        cases hcond
        exact hdisk
      · simp [hname, hdisk] at hcond

/-- C4: witness for the amended theorem on the corrupt-file scenario. -/
theorem C4_witness :
    getModelPaths c4Catalog ["en_de"] c4Files "en" "de" false
        = .ok ⟨flagPathFiles c4Catalog c4Files "en" "de", [], []⟩ ∧
      ∀ ftp ∈ flagPathFiles c4Catalog c4Files "en" "de",
        (c4Files.lookup ftp.2).isSome = true :=
  C4_flag_path_skips_validation c4Catalog ["en_de"] c4Files "en" "de"
    (by decide) (by decide) (by decide) (by decide)

/-! Text cleaning: engine.js CleanText (lines 41-64) and the worker request
handler worker.js handleTranslationRequest (lines 420-468).  Texts are
modelled as List Char (a JS string is a sequence of characters).  The JS
regex /^(\s*)(.*?)(\s*)$/s decomposes the text into the maximal leading
whitespace run, a lazy middle, and the remaining maximal trailing
whitespace run: greedy group 1 takes the longest \s prefix, the lazy group
2 then grows only until group 3 can consume the rest as whitespace, so
group 2 is the remainder stripped of its trailing whitespace run.
takeWhile/dropWhile and their reversed forms below implement exactly
that. -/

/-- JS regex \s character class (ECMA-262 WhiteSpace ∪ LineTerminator). -/
def isJsWhitespace (c : Char) : Bool :=
  c = ' ' || c = '\t' || c = '\n' || c = '\x0b' || c = '\x0c' || c = '\r' ||
  c = ' ' || c = ' ' || (' ' ≤ c && c ≤ ' ') ||
  c = ' ' || c = ' ' || c = ' ' || c = ' ' ||
  c = '　' || c = '﻿'

/-- engine.js FULL_WIDTH_PUNCTUATION_LANGUAGE_TAGS: ja, ko, zh plus MCC. -/
def fullWidthPunctuationTags : List String := ["ja", "ko", "zh"] ++ Lang.MCC

/-- engine.js FULL_WIDTH_PUNCTUATION_REGEX replacement,
replaceAll(/([。！？])"/g, "$1 “"): a left-to-right non-overlapping scan
that rewrites each full-width sentence ender followed by a straight double
quote into the ender, a space, and a left curly quote. -/
def fwpFix : List Char → List Char
  | [] => []
  | [c] => [c]
  | c :: d :: rest =>
    if (c = '。' || c = '！' || c = '？') && d = '"' then
      c :: ' ' :: '“' :: fwpFix rest
    else c :: fwpFix (d :: rest)

/-- The maximal leading whitespace run (regex group 1). -/
def wsLead (s : List Char) : List Char := s.takeWhile isJsWhitespace

/-- The maximal trailing whitespace run of the remainder (regex group 3). -/
def wsTrail (s : List Char) : List Char :=
  ((s.dropWhile isJsWhitespace).reverse.takeWhile isJsWhitespace).reverse

/-- The middle of the decomposition (regex group 2), before soft-hyphen
removal. -/
def rawCore (s : List Char) : List Char :=
  ((s.dropWhile isJsWhitespace).reverse.dropWhile isJsWhitespace).reverse

/-- Result record of CleanText. -/
structure CleanedText where
  whitespaceBefore : List Char
  whitespaceAfter : List Char
  cleanedSourceText : List Char
deriving Repr, DecidableEq

/-- engine.js CleanText (lines 41-64): split off both whitespace runs,
delete every soft hyphen U+00AD from the middle, and for full-width
punctuation languages apply the quote-spacing rewrite. -/
def CleanText (sourceLanguage : String) (sourceText : List Char) : CleanedText :=
  let noShy := (rawCore sourceText).filter (fun c => c ≠ '­')
  ⟨wsLead sourceText, wsTrail sourceText,
    if fullWidthPunctuationTags.contains sourceLanguage then fwpFix noShy else noShy⟩

/-- worker.js handleTranslationRequest (lines 420-468): clean the text,
run the engine on the cleaned core (workQueue.runTask calling
engine.translate([cleanedSourceText])), and reassemble the response as
whitespaceBefore + translated + whitespaceAfter. -/
def handleTranslationRequest (engineTranslate : List Char → List Char)
    (sourceLanguage : String) (sourceText : List Char) : List Char :=
  let ct := CleanText sourceLanguage sourceText
  ct.whitespaceBefore ++ engineTranslate ct.cleanedSourceText ++ ct.whitespaceAfter

lemma all_takeWhile (p : Char → Bool) (l : List Char) :
    (l.takeWhile p).all p = true := by
  induction l with
  | nil => rfl
  | cons c rest ih =>
    by_cases h : p c <;> simp [List.takeWhile, h, ih]

lemma head_dropWhile_false (p : Char → Bool) (l : List Char) :
    ∀ c ∈ (l.dropWhile p).head?, p c = false := by
  induction l with
  | nil => intro c hc; simp at hc
  | cons a rest ih =>
    intro c hc
    rw [List.dropWhile_cons] at hc
    by_cases h : p a
    · rw [if_pos h] at hc
      exact ih c hc
    · rw [if_neg h] at hc
      have hca : a = c := by simpa using hc
      subst hca
      cases hpa : p a with
      | true => exact absurd hpa h
      | false => rfl

/-! Claim C9 -/

/-- C9: the worker response preserves the leading and trailing whitespace
runs of the input.  CleanText decomposes the source exactly as
source = whitespaceBefore ++ rawCore ++ whitespaceAfter where both runs are
all-whitespace and the core neither starts nor ends with whitespace
(maximality of the runs), the cleaned core is the raw core with soft
hyphens removed (plus the full-width-punctuation rewrite for CJK sources),
and the response is whitespaceBefore ++ translated ++ whitespaceAfter. -/
theorem C9_whitespace_round_trip (engineTranslate : List Char → List Char)
    (sourceLanguage : String) (sourceText : List Char) :
    handleTranslationRequest engineTranslate sourceLanguage sourceText
        = (CleanText sourceLanguage sourceText).whitespaceBefore
            ++ engineTranslate (CleanText sourceLanguage sourceText).cleanedSourceText
            ++ (CleanText sourceLanguage sourceText).whitespaceAfter ∧
      sourceText
        = (CleanText sourceLanguage sourceText).whitespaceBefore
            ++ rawCore sourceText
            ++ (CleanText sourceLanguage sourceText).whitespaceAfter ∧
      (CleanText sourceLanguage sourceText).whitespaceBefore.all isJsWhitespace = true ∧
      (CleanText sourceLanguage sourceText).whitespaceAfter.all isJsWhitespace = true ∧
      (∀ c ∈ (rawCore sourceText).head?, isJsWhitespace c = false) ∧
      (∀ c ∈ (rawCore sourceText).getLast?, isJsWhitespace c = false) ∧
      (CleanText sourceLanguage sourceText).cleanedSourceText
        = (if fullWidthPunctuationTags.contains sourceLanguage then
              fwpFix ((rawCore sourceText).filter (fun c => c ≠ '­'))
            else (rawCore sourceText).filter (fun c => c ≠ '­')) := by
  have hpre : rawCore sourceText ++ wsTrail sourceText
      = sourceText.dropWhile isJsWhitespace := by
    have h3 := List.takeWhile_append_dropWhile isJsWhitespace
      (sourceText.dropWhile isJsWhitespace).reverse
    calc rawCore sourceText ++ wsTrail sourceText
        = ((sourceText.dropWhile isJsWhitespace).reverse.takeWhile isJsWhitespace
            ++ (sourceText.dropWhile isJsWhitespace).reverse.dropWhile isJsWhitespace).reverse := by
          rw [List.reverse_append]; rfl
      _ = (sourceText.dropWhile isJsWhitespace).reverse.reverse := by rw [h3]
      _ = sourceText.dropWhile isJsWhitespace := List.reverse_reverse _
  refine ⟨rfl, ?_, ?_, ?_, ?_, ?_, rfl⟩
  · show sourceText = wsLead sourceText ++ rawCore sourceText ++ wsTrail sourceText
    have h1 := List.takeWhile_append_dropWhile isJsWhitespace sourceText
    calc sourceText
        = sourceText.takeWhile isJsWhitespace ++ sourceText.dropWhile isJsWhitespace := h1.symm
      _ = wsLead sourceText ++ (rawCore sourceText ++ wsTrail sourceText) := by rw [hpre]; rfl
      _ = wsLead sourceText ++ rawCore sourceText ++ wsTrail sourceText := by
          rw [List.append_assoc]
  · exact all_takeWhile isJsWhitespace sourceText
  · show (wsTrail sourceText).all isJsWhitespace = true
    rw [List.all_eq_true]
    intro x hx
    simp only [wsTrail, List.mem_reverse] at hx
    have hall := all_takeWhile isJsWhitespace (sourceText.dropWhile isJsWhitespace).reverse
    rw [List.all_eq_true] at hall
    exact hall x hx
  · intro c hc
    have hhead : (sourceText.dropWhile isJsWhitespace).head? = some c := by
      rw [← hpre]
      cases hrc : rawCore sourceText with
      | nil => rw [hrc] at hc; simp at hc
      | cons a as =>
        have hca : a = c := by rw [hrc] at hc; simpa using hc
        subst hca
        simp [hrc]
    exact head_dropWhile_false isJsWhitespace sourceText c (Option.mem_def.mpr hhead)
  · intro c hc
    have hlast : (rawCore sourceText).getLast?
        = ((sourceText.dropWhile isJsWhitespace).reverse.dropWhile isJsWhitespace).head? := by
      show ((sourceText.dropWhile isJsWhitespace).reverse.dropWhile isJsWhitespace).reverse.getLast?
        = _
      rw [List.getLast?_reverse]
    rw [Option.mem_def, hlast] at hc
    exact head_dropWhile_false isJsWhitespace
      (sourceText.dropWhile isJsWhitespace).reverse c (Option.mem_def.mpr hc)

/-- C9: witness at the identity engine, source language "en" and the source
text consisting of a space, the letter a, and a tab. -/
theorem C9_witness :
    handleTranslationRequest (fun l => l) "en" [' ', 'a', '\t']
        = (CleanText "en" [' ', 'a', '\t']).whitespaceBefore
            ++ (fun l : List Char => l) (CleanText "en" [' ', 'a', '\t']).cleanedSourceText
            ++ (CleanText "en" [' ', 'a', '\t']).whitespaceAfter ∧
      ([' ', 'a', '\t'] : List Char)
        = (CleanText "en" [' ', 'a', '\t']).whitespaceBefore
            ++ rawCore [' ', 'a', '\t']
            ++ (CleanText "en" [' ', 'a', '\t']).whitespaceAfter :=
  ⟨(C9_whitespace_round_trip (fun l => l) "en" [' ', 'a', '\t']).1,
   (C9_whitespace_round_trip (fun l => l) "en" [' ', 'a', '\t']).2.1⟩

end MTran
